import Mathlib

/-!
Verification of the compatibility-lookup and estimator core of the
revenue-stacking tool.

The Python dictionaries are embedded as association lists of
`String × α` pairs (`alookup` is `d[k]` guarded by `k in d`;
`dictInsert` is `d[k] = v`, which overwrites in place when the key is
already present and appends otherwise, matching Python dict insertion
order).  Python floats are embedded as rationals.  Python functions
that can only return (never raise) are embedded as total functions.
-/

set_option maxHeartbeats 1000000

/-- Association-list lookup, embedding a Python dict read `d[k]`
(with `k in d` membership test): first binding whose key equals `k`. -/
def alookup (l : List (String × α)) (k : String) : Option α :=
  match l with
  | [] => none
  | p :: rest => if p.1 = k then some p.2 else alookup rest k

/-- Python dict assignment `d[k] = v`: overwrite in place when the key
is present (keeping its position), append otherwise. -/
def dictInsert (l : List (String × α)) (k : String) (v : α) : List (String × α) :=
  match l with
  | [] => [(k, v)]
  | p :: rest => if p.1 = k then (k, v) :: rest else p :: dictInsert rest k v

/-- A compatibility cell, from `src/utils/data_loader.py`: the stored
dicts carry `value` and `color` keys; the missing-entry sentinel is
`{'value': None, 'color': None}`. -/
structure CompatEntry where
  value : Option String
  color : Option String
deriving DecidableEq

/-- The dataset snapshot consumed by `StackingDataLoader` (`self.data`):
services list, service-name alias mapping, technical-requirements
records, and the per-mode compatibility matrix of nested dicts. -/
structure StackingData where
  services : List String
  service_name_mapping : List (String × String)
  technical_requirements : List (String × List (String × String))
  compatibility : List (String × List (String × List (String × CompatEntry)))

/-- `StackingDataLoader.get_compatibility` (data_loader.py lines 54-69):
`matrix = self.data.get('compatibility', {}).get(mode, {})`; if
`service1 in matrix and service2 in matrix[service1]` return
`matrix[service1][service2]`, else the `{'value': None, 'color': None}`
sentinel.  Only the (service1, service2) ordering is consulted. -/
def get_compatibility (d : StackingData) (service1 service2 mode : String) : CompatEntry :=
  let matrix := (alookup d.compatibility mode).getD []
  match alookup matrix service1 with
  | some row =>
    match alookup row service2 with
    | some e => e
    | none => ⟨none, none⟩
  | none => ⟨none, none⟩

/-- `StackingDataLoader._get_tech_requirements_key` (data_loader.py
lines 85-91): map through `service_name_mapping`, falling back to the
service name itself. -/
def get_tech_requirements_key (d : StackingData) (service_name : String) : String :=
  match alookup d.service_name_mapping service_name with
  | some k => k
  | none => service_name

/-- `StackingDataLoader.get_technical_requirements` (data_loader.py
lines 71-83): `self.data.get('technical_requirements', {}).get(tech_key, {})`. -/
def get_technical_requirements (d : StackingData) (service_name : String) :
    List (String × String) :=
  (alookup d.technical_requirements (get_tech_requirements_key d service_name)).getD []

/-- The pair enumeration of `check_multi_compatibility`'s nested loop:
`for i, service1 in enumerate(services): for service2 in services[i+1:]`,
i.e. all (i, j) index pairs with i < j, in input order. -/
def pairsFrom : List String → List (String × String)
  | [] => []
  | s1 :: rest => rest.map (fun s2 => (s1, s2)) ++ pairsFrom rest

/-- The dict key `f"{service1}|{service2}"` used by
`check_multi_compatibility`. -/
def entryKey (p : String × String) : String :=
  p.1 ++ "|" ++ p.2

/-- The value stored for one pair by `check_multi_compatibility`: the
dict literal with the three mode results. -/
def modeResults (d : StackingData) (s1 s2 : String) : List (String × CompatEntry) :=
  [("codelivery", get_compatibility d s1 s2 "codelivery"),
   ("splitting", get_compatibility d s1 s2 "splitting"),
   ("jumping", get_compatibility d s1 s2 "jumping")]

/-- `StackingDataLoader.check_multi_compatibility` (data_loader.py lines
93-114): `results = {}`, then for each i < j pair
`results[f"(service1)|(service2)"] = (three-mode dict)`, returning the
dict (insertion-ordered, overwriting on key collision). -/
def check_multi_compatibility (d : StackingData) (services : List String) :
    List (String × List (String × CompatEntry)) :=
  (pairsFrom services).foldl
    (fun results p => dictInsert results (p.1 ++ "|" ++ p.2) (modeResults d p.1 p.2)) []

/-- Python substring containment `pat in s`, over the character lists:
`leadsWith pat s` is "s starts with pat". -/
def leadsWith : List Char → List Char → Bool
  | [], _ => true
  | _ :: _, [] => false
  | p :: ps, c :: cs => p == c && leadsWith ps cs

/-- Python substring containment `pat in s`: some suffix of `s` starts
with `pat`. -/
def hasSegment (pat : List Char) : List Char → Bool
  | [] => leadsWith pat []
  | c :: cs => leadsWith pat (c :: cs) || hasSegment pat (cs)

/-- Python `pat in s` on strings. -/
def strContains (s pat : String) : Bool :=
  hasSegment pat.data s.data

/-- `render_compatibility_badge` (ui_components.py lines 45-66): the
argument is `entry.get('value')`, which may be `None`; `if not value`
catches both `None` and the empty string; then ordered substring
checks. -/
def render_compatibility_badge (value : Option String) : String :=
  match value with
  | none => "❓"
  | some v =>
    if v = "" then "❓"
    else if strContains v "Explicit Yes" then "✅"
    else if strContains v "Explicit No" then "❌"
    else if strContains v "No Data" then "❓"
    else if strContains v "N/A" then "⚠️"
    else "❓"

/-- Modelled from the spec: the classification taxonomy named by the
spec ("compatible / incompatible / unknown-or-no-data / not-applicable
/ unknown"); the badge emojis are the code's rendering of these
classes. -/
inductive CompatClass
  | compatible
  | incompatible
  | unknownData
  | notApplicable
deriving DecidableEq

/-- Modelled from the spec: classification of a raw value by ordered
substring containment, written from the spec's words ("Explicit Yes" →
compatible, else "Explicit No" → incompatible, else "No Data" →
unknown/no-data, else "N/A" → not-applicable, anything else including
empty or missing → unknown). -/
def classifySpec (value : Option String) : CompatClass :=
  match value with
  | none => .unknownData
  | some v =>
    if strContains v "Explicit Yes" then .compatible
    else if strContains v "Explicit No" then .incompatible
    else if strContains v "No Data" then .unknownData
    else if strContains v "N/A" then .notApplicable
    else .unknownData

/-- The badge the code displays for each spec classification class. -/
def badgeOfClass : CompatClass → String
  | .compatible => "✅"
  | .incompatible => "❌"
  | .unknownData => "❓"
  | .notApplicable => "⚠️"

/-- `calculate_cost_savings` (estimator.py lines 16-43), floats as
rationals. -/
def calculate_cost_savings (capacity_kw flex_hours_per_day peak_rate_p offpeak_rate_p
    participation_rate_low participation_rate_high : ℚ) : ℚ × ℚ :=
  let peak_rate := peak_rate_p / 100
  let offpeak_rate := offpeak_rate_p / 100
  let kwh_per_day := capacity_kw * flex_hours_per_day
  let savings_per_kwh := peak_rate - offpeak_rate
  let savings_low := kwh_per_day * savings_per_kwh * (participation_rate_low / 100) * 365
  let savings_high := kwh_per_day * savings_per_kwh * (participation_rate_high / 100) * 365
  (max 0 savings_low, max 0 savings_high)

/-- The static `service_rates` table of `calculate_incentives`
(estimator.py lines 61-70), £ per kW per hour of availability. -/
def service_rates : List (String × ℚ) :=
  [("Dynamic Containment (DC)", 20 / 1000),
   ("Dynamic Moderation (DM)", 15 / 1000),
   ("Dynamic Regulation (DR)", 18 / 1000),
   ("Demand Flexibility Service (DFS)", 50 / 100),
   ("Peak load reduction (PR)", 10 / 1000),
   ("Balancing Reserve (BR)", 12 / 1000),
   ("Quick Reserve (QR)", 15 / 1000),
   ("Static Firm Frequency Response (SFFR)", 10 / 1000)]

/-- `calculate_incentives` (estimator.py lines 46-83): empty selection
returns (0, 0); otherwise `service_rates.get(s, 0.005)` per selected
program, arithmetic mean of the rates, and the two clamped products. -/
def calculate_incentives (capacity_kw : ℚ) (service_types : List String)
    (availability_hours_low availability_hours_high : ℚ)
    (participation_rate_low participation_rate_high : ℚ) : ℚ × ℚ :=
  if service_types = [] then (0, 0)
  else
    let applicable_rates := service_types.map (fun s => (alookup service_rates s).getD (5 / 1000))
    let avg_rate := applicable_rates.sum / (applicable_rates.length : ℚ)
    let incentives_low :=
      capacity_kw * avg_rate * availability_hours_low * (participation_rate_low / 100)
    let incentives_high :=
      capacity_kw * avg_rate * availability_hours_high * (participation_rate_high / 100)
    (max 0 incentives_low, max 0 incentives_high)

/-- `calculate_co2_savings` (estimator.py lines 86-107). -/
def calculate_co2_savings (capacity_kw flex_hours_per_day peak_emission_factor
    offpeak_emission_factor participation_rate_avg : ℚ) : ℚ :=
  let kwh_per_day := capacity_kw * flex_hours_per_day
  let emission_reduction := peak_emission_factor - offpeak_emission_factor
  let co2 := kwh_per_day * emission_reduction * (participation_rate_avg / 100) * 365
  max 0 co2

/-- A small concrete dataset used by the witness theorems: the
codelivery table stores the (A, B) pair in both physical orderings. -/
def sampleData : StackingData :=
  { services := ["A", "B", "C"]
    service_name_mapping := [("A", "TechA")]
    technical_requirements := [("TechA", [("min_capacity", "1 MW")])]
    compatibility :=
      [("codelivery",
        [("A", [("B", ⟨some "Explicit Yes", some "green"⟩)]),
         ("B", [("A", ⟨some "Explicit Yes", some "green"⟩)])]),
       ("splitting", []),
       ("jumping", [])] }

/-- A dataset whose codelivery table stores the (A, B) pair in one
physical ordering only. -/
def oneWayData : StackingData :=
  { services := ["A", "B"]
    service_name_mapping := []
    technical_requirements := []
    compatibility :=
      [("codelivery", [("A", [("B", ⟨some "Explicit Yes", some "green"⟩)])])] }

/-- The empty dataset. -/
def emptyData : StackingData :=
  { services := []
    service_name_mapping := []
    technical_requirements := []
    compatibility := [] }

/-- The two-step nested-dict read underlying `get_compatibility`:
`matrix[service1][service2]` as an `Option`, `none` when either level
misses. -/
def lookupPair (d : StackingData) (mode a b : String) : Option CompatEntry :=
  match alookup ((alookup d.compatibility mode).getD []) a with
  | some row => alookup row b
  | none => none

/-- Whether the (a, b) ordering has a stored cell in the given mode's
table (`service1 in matrix and service2 in matrix[service1]`). -/
def hasEntry (d : StackingData) (mode a b : String) : Bool :=
  (lookupPair d mode a b).isSome

lemma get_compatibility_eq_lookupPair (d : StackingData) (a b m : String) :
    get_compatibility d a b m = (lookupPair d m a b).getD ⟨none, none⟩ := by
  simp only [get_compatibility, lookupPair]
  split
  · split <;> rename_i h2 <;> rw [h2] <;> rfl
  · rfl

lemma alookup_eq_none {α : Type} {l : List (String × α)} {k : String}
    (h : ∀ p ∈ l, p.1 ≠ k) : alookup l k = none := by
  induction l with
  | nil => rfl
  | cons p rest ih =>
    simp only [alookup]
    rw [if_neg (h p (List.mem_cons_self p rest))]
    exact ih (fun q hq => h q (List.mem_cons_of_mem p hq))

/-- C1: refuted as stated. `get_compatibility` consults only the
(service1, service2) ordering, so when the backing table stores only
one physical ordering of a pair, the reversed query falls through to
the `{'value': None, 'color': None}` sentinel and classifies
differently: here (A, B) classifies as compatible ("✅") while (B, A)
classifies as unknown ("❓"). -/
theorem C1_counterexample :
    render_compatibility_badge (get_compatibility oneWayData "A" "B" "codelivery").value ≠
      render_compatibility_badge (get_compatibility oneWayData "B" "A" "codelivery").value := by
  decide

/-- C1 (amended): `getCompatibility(A, B, m)` returns the same
classification value as `getCompatibility(B, A, m)` whenever the
backing table stores the pair symmetrically (both physical orderings
carrying the same cell, including both absent); when only one physical
ordering is stored the reversed query returns the unknown sentinel
instead. -/
theorem C1_commutative_on_symmetric (d : StackingData) (a b m : String)
    (hsym : lookupPair d m a b = lookupPair d m b a) :
    get_compatibility d a b m = get_compatibility d b a m := by
  rw [get_compatibility_eq_lookupPair, get_compatibility_eq_lookupPair, hsym]

/-- C1 witness: on `sampleData`, which stores (A, B) in both physical
orderings, the two query directions agree. -/
theorem C1_commutative_on_symmetric_witness :
    lookupPair sampleData "codelivery" "A" "B" = lookupPair sampleData "codelivery" "B" "A" ∧
    get_compatibility sampleData "A" "B" "codelivery" =
      get_compatibility sampleData "B" "A" "codelivery" :=
  ⟨by decide, C1_commutative_on_symmetric sampleData "A" "B" "codelivery" (by decide)⟩

/-- C2: `render_compatibility_badge` classifies a raw value exactly as
the spec's ordered substring-containment policy: "Explicit Yes" →
compatible, else "Explicit No" → incompatible, else "No Data" →
unknown/no-data, else "N/A" → not-applicable, anything else (empty
string or missing value included) → unknown; in particular
"Explicit Yes, but see N/A note" classifies as compatible. -/
theorem C2_badge_classification (v : Option String) :
    render_compatibility_badge v = badgeOfClass (classifySpec v) ∧
    classifySpec (some "Explicit Yes, but see N/A note") = CompatClass.compatible := by
  refine ⟨?_, by decide⟩
  cases v with
  | none => rfl
  | some s =>
    by_cases h : s = ""
    · subst h; decide
    · simp only [render_compatibility_badge, classifySpec, badgeOfClass, if_neg h]
      split_ifs <;> rfl

/-- C7: when neither ordering of a pair has a stored cell in the given
mode's table, `get_compatibility` returns the sentinel with value and
color both `None` (and, being total, never raises). -/
theorem C7_missing_pair_unknown (d : StackingData) (a b m : String)
    (hab : hasEntry d m a b = false) (hba : hasEntry d m b a = false) :
    get_compatibility d a b m = ⟨none, none⟩ := by
  rw [get_compatibility_eq_lookupPair]
  simp only [hasEntry] at hab
  cases hl : lookupPair d m a b with
  | none => rfl
  | some e => rw [hl] at hab; simp at hab

/-- C7 witness: the pair (A, C) is stored in neither ordering of
`sampleData`'s codelivery table, and the query returns the sentinel. -/
theorem C7_missing_pair_unknown_witness :
    hasEntry sampleData "codelivery" "A" "C" = false ∧
    hasEntry sampleData "codelivery" "C" "A" = false ∧
    get_compatibility sampleData "A" "C" "codelivery" = ⟨none, none⟩ :=
  ⟨by decide, by decide,
    C7_missing_pair_unknown sampleData "A" "C" "codelivery" (by decide) (by decide)⟩

/-- C8: `get_technical_requirements` resolves the service name through
`service_name_mapping` first, falls back to the name itself when
unmapped, and returns the empty mapping (never an error — the function
is total) when no technical-requirements record exists for the
resolved key. -/
theorem C8_tech_requirements (d : StackingData) (name : String) :
    (∀ k, alookup d.service_name_mapping name = some k →
      get_technical_requirements d name = (alookup d.technical_requirements k).getD []) ∧
    (alookup d.service_name_mapping name = none →
      get_technical_requirements d name = (alookup d.technical_requirements name).getD []) ∧
    (alookup d.technical_requirements (get_tech_requirements_key d name) = none →
      get_technical_requirements d name = []) := by
  refine ⟨?_, ?_, ?_⟩
  · intro k hk
    simp [get_technical_requirements, get_tech_requirements_key, hk]
  · intro h
    simp [get_technical_requirements, get_tech_requirements_key, h]
  · intro h
    simp [get_technical_requirements, h]

/-- C8 witness: "UnknownService" is unmapped and has no record in
`sampleData`, and the lookup returns the empty mapping. -/
theorem C8_tech_requirements_witness :
    alookup sampleData.technical_requirements
      (get_tech_requirements_key sampleData "UnknownService") = none ∧
    get_technical_requirements sampleData "UnknownService" = [] :=
  ⟨by decide, (C8_tech_requirements sampleData "UnknownService").2.2 (by decide)⟩

/-- C9: a mode string that is not one of the three known modes misses
the (schema-conformant) compatibility dict, so `get_compatibility`
returns the same `{'value': None, 'color': None}` sentinel as a
missing pair, and (being total) never raises. -/
theorem C9_unknown_mode_sentinel (d : StackingData) (a b mode : String)
    (hschema : ∀ p ∈ d.compatibility,
      p.1 = "codelivery" ∨ p.1 = "splitting" ∨ p.1 = "jumping")
    (hmode : mode ≠ "codelivery" ∧ mode ≠ "splitting" ∧ mode ≠ "jumping") :
    get_compatibility d a b mode = ⟨none, none⟩ := by
  have hnone : alookup d.compatibility mode = none := by
    refine alookup_eq_none (fun p hp hpk => ?_)
    rcases hschema p hp with h | h | h
    · exact hmode.1 (hpk ▸ h)
    · exact hmode.2.1 (hpk ▸ h)
    · exact hmode.2.2 (hpk ▸ h)
  rw [get_compatibility_eq_lookupPair]
  simp [lookupPair, hnone, alookup]

/-- C9 witness: the mode string "delivery" is none of the three known
modes, and the query on `sampleData` returns the sentinel. -/
theorem C9_unknown_mode_sentinel_witness :
    (∀ p ∈ sampleData.compatibility,
      p.1 = "codelivery" ∨ p.1 = "splitting" ∨ p.1 = "jumping") ∧
    get_compatibility sampleData "A" "B" "delivery" = ⟨none, none⟩ :=
  ⟨by decide, C9_unknown_mode_sentinel sampleData "A" "B" "delivery" (by decide) (by decide)⟩

/-- C10: `check_multi_compatibility` on an empty or single-element
service list runs its nested loop zero times and returns the empty
dict (and, being total, never raises). -/
theorem C10_degenerate_lists (d : StackingData) (s : String) :
    check_multi_compatibility d [] = [] ∧ check_multi_compatibility d [s] = [] :=
  ⟨rfl, rfl⟩

lemma dictInsert_fresh {α : Type} (l : List (String × α)) (k : String) (v : α)
    (h : ∀ q ∈ l, q.1 ≠ k) : dictInsert l k v = l ++ [(k, v)] := by
  induction l with
  | nil => rfl
  | cons p rest ih =>
    simp only [dictInsert]
    rw [if_neg (h p (List.mem_cons_self p rest)),
      ih (fun q hq => h q (List.mem_cons_of_mem p hq))]
    rfl

lemma foldl_dictInsert_fresh {α : Type} (f : String × String → α)
    (ps : List (String × String)) :
    ∀ acc : List (String × α),
    (ps.map entryKey).Nodup →
    (∀ p ∈ ps, ∀ q ∈ acc, q.1 ≠ entryKey p) →
    ps.foldl (fun results p => dictInsert results (entryKey p) (f p)) acc =
      acc ++ ps.map (fun p => (entryKey p, f p)) := by
  induction ps with
  | nil =>
    intro acc _ _
    simp
  | cons p rest ih =>
    intro acc hnd hacc
    simp only [List.map_cons, List.nodup_cons] at hnd
    obtain ⟨hnotmem, hndrest⟩ := hnd
    simp only [List.foldl_cons, List.map_cons]
    rw [dictInsert_fresh acc (entryKey p) (f p)
      (fun q hq => hacc p (List.mem_cons_self p rest) q hq)]
    rw [ih (acc ++ [(entryKey p, f p)]) hndrest ?_]
    · rw [List.append_assoc]
      rfl
    · intro p' hp' q hq
      rcases List.mem_append.mp hq with hq' | hq'
      · exact hacc p' (List.mem_cons_of_mem p hp') q hq'
      · simp only [List.mem_singleton] at hq'
        subst hq'
        show entryKey p ≠ entryKey p'
        intro hEq
        apply hnotmem
        rw [hEq]
        exact List.mem_map_of_mem entryKey hp'

lemma mem_pairsFrom {l : List String} {p : String × String} (h : p ∈ pairsFrom l) :
    p.1 ∈ l ∧ p.2 ∈ l := by
  induction l with
  | nil => simp [pairsFrom] at h
  | cons s rest ih =>
    simp only [pairsFrom, List.mem_append, List.mem_map] at h
    rcases h with ⟨s2, hs2, rfl⟩ | h
    · exact ⟨List.mem_cons_self _ _, List.mem_cons_of_mem _ hs2⟩
    · exact ⟨List.mem_cons_of_mem _ (ih h).1, List.mem_cons_of_mem _ (ih h).2⟩

lemma pairsFrom_nodup {l : List String} (h : l.Nodup) : (pairsFrom l).Nodup := by
  induction l with
  | nil => simp [pairsFrom]
  | cons s rest ih =>
    obtain ⟨hs, hrest⟩ := List.nodup_cons.mp h
    simp only [pairsFrom]
    have hinj : Function.Injective (fun s2 => (s, s2) : String → String × String) := by
      intro x y hxy
      simpa using hxy
    refine List.Nodup.append (hrest.map hinj) (ih hrest) ?_
    intro x hx1 hx2
    obtain ⟨s2, _, rfl⟩ := List.mem_map.mp hx1
    exact hs (mem_pairsFrom hx2).1

lemma string_data_append (a b : String) : (a ++ b).data = a.data ++ b.data := by
  cases a
  cases b
  rfl

lemma string_data_inj {a b : String} (h : a.data = b.data) : a = b := by
  cases a
  cases b
  exact congrArg String.mk h

lemma entryKey_data (p : String × String) :
    (entryKey p).data = p.1.data ++ '|' :: p.2.data := by
  simp only [entryKey, string_data_append]
  simp [List.append_assoc]

lemma sep_split_unique : ∀ {l1 : List Char} {m1 l2 m2 : List Char},
    '|' ∉ l1 → '|' ∉ m1 →
    l1 ++ '|' :: l2 = m1 ++ '|' :: m2 → l1 = m1 ∧ l2 = m2 := by
  intro l1
  induction l1 with
  | nil =>
    intro m1 l2 m2 _ h2 h
    cases m1 with
    | nil => simpa using h
    | cons c cs =>
      simp only [List.nil_append, List.cons_append, List.cons.injEq] at h
      obtain ⟨hc, -⟩ := h
      subst hc
      exact absurd (List.mem_cons_self _ _) h2
  | cons a as ih =>
    intro m1 l2 m2 h1 h2 h
    cases m1 with
    | nil =>
      simp only [List.cons_append, List.nil_append, List.cons.injEq] at h
      obtain ⟨ha, -⟩ := h
      subst ha
      exact absurd (List.mem_cons_self _ _) h1
    | cons c cs =>
      simp only [List.cons_append, List.cons.injEq] at h
      obtain ⟨rfl, h⟩ := h
      have h1' : '|' ∉ as := fun hm => h1 (List.mem_cons_of_mem a hm)
      have h2' : '|' ∉ cs := fun hm => h2 (List.mem_cons_of_mem a hm)
      obtain ⟨he, hl⟩ := ih h1' h2' h
      exact ⟨by rw [he], hl⟩

lemma pairsKeys_nodup {l : List String} (hnd : l.Nodup)
    (hbar : ∀ s ∈ l, '|' ∉ s.data) :
    ((pairsFrom l).map entryKey).Nodup := by
  refine List.Nodup.map_on ?_ (pairsFrom_nodup hnd)
  intro p hp q hq hkey
  obtain ⟨hp1, hp2⟩ := mem_pairsFrom hp
  obtain ⟨hq1, hq2⟩ := mem_pairsFrom hq
  have hdata := congrArg String.data hkey
  rw [entryKey_data, entryKey_data] at hdata
  obtain ⟨h1, h2⟩ := sep_split_unique (hbar _ hp1) (hbar _ hq1) hdata
  exact Prod.ext_iff.mpr ⟨string_data_inj h1, string_data_inj h2⟩

lemma two_mul_pairsFrom_length (l : List String) :
    2 * (pairsFrom l).length + l.length = l.length * l.length := by
  induction l with
  | nil => rfl
  | cons s rest ih =>
    simp only [pairsFrom, List.length_append, List.length_map, List.length_cons]
    have expand : (rest.length + 1) * (rest.length + 1)
        = rest.length * rest.length + 2 * rest.length + 1 := by ring
    rw [expand]
    linarith [ih]

lemma pairsFrom_length (l : List String) :
    (pairsFrom l).length = l.length * (l.length - 1) / 2 := by
  have h2 : l.length * (l.length - 1) = 2 * (pairsFrom l).length := by
    rcases l with _ | ⟨a, t⟩
    · simp [pairsFrom]
    · have h := two_mul_pairsFrom_length (a :: t)
      simp only [List.length_cons, Nat.add_sub_cancel] at h ⊢
      have expand : (t.length + 1) * (t.length + 1)
          = (t.length + 1) * t.length + (t.length + 1) := by ring
      linarith [h, expand]
  rw [h2]
  omega

/-- C3: refuted as stated. The result is a dict keyed by
`f"{service1}|{service2}"`, so two different pairs of distinct service
names can produce the same key when a name itself contains the `|`
separator: over ["A", "A|B", "B|C", "C"] (n = 4, all distinct) the
pairs (A, B|C) and (A|B, C) both key "A|B|C" and collapse, giving 5
entries instead of n×(n-1)/2 = 6. -/
theorem C3_counterexample :
    (["A", "A|B", "B|C", "C"] : List String).Nodup ∧
    2 ≤ (["A", "A|B", "B|C", "C"] : List String).length ∧
    (check_multi_compatibility emptyData ["A", "A|B", "B|C", "C"]).length ≠
      4 * (4 - 1) / 2 := by
  refine ⟨by decide, by decide, by decide⟩

/-- C3 (amended): for every collection of n ≥ 2 distinct service names
none of which contains the `|` separator character,
`check_multi_compatibility` returns exactly n×(n-1)/2 pair entries,
each holding exactly the 3 mode results (codelivery, splitting,
jumping, in that order), and the pairs appear exactly in the order of
the source's nested loop — input order with i < j indexing (every pair
whose first element occurs earlier in the input precedes pairs whose
first element occurs later), not alphabetical order. -/
theorem C3_multi_pairs (d : StackingData) (services : List String)
    (hn : 2 ≤ services.length) (hnd : services.Nodup)
    (hbar : ∀ s ∈ services, '|' ∉ s.data) :
    check_multi_compatibility d services =
      (pairsFrom services).map (fun p => (entryKey p, modeResults d p.1 p.2)) ∧
    (check_multi_compatibility d services).length =
      services.length * (services.length - 1) / 2 ∧
    ∀ e ∈ check_multi_compatibility d services,
      e.2.map Prod.fst = ["codelivery", "splitting", "jumping"] := by
  have hmain : check_multi_compatibility d services =
      (pairsFrom services).map (fun p => (entryKey p, modeResults d p.1 p.2)) := by
    have h := foldl_dictInsert_fresh (fun p => modeResults d p.1 p.2)
      (pairsFrom services) [] (pairsKeys_nodup hnd hbar)
      (by intro p _ q hq; cases hq)
    simpa only [check_multi_compatibility, entryKey, List.nil_append] using h
  refine ⟨hmain, ?_, ?_⟩
  · rw [hmain, List.length_map, pairsFrom_length]
  · intro e he
    rw [hmain] at he
    obtain ⟨p, hp, rfl⟩ := List.mem_map.mp he
    rfl

/-- C3 witness: three pipe-free distinct services give 3 pair
entries. -/
theorem C3_multi_pairs_witness :
    2 ≤ (["A", "B", "C"] : List String).length ∧
    (["A", "B", "C"] : List String).Nodup ∧
    (∀ s ∈ (["A", "B", "C"] : List String), '|' ∉ s.data) ∧
    (check_multi_compatibility sampleData ["A", "B", "C"]).length = 3 := by
  refine ⟨by decide, by decide, by decide, ?_⟩
  have h := (C3_multi_pairs sampleData ["A", "B", "C"] (by decide) (by decide)
    (by decide)).2.1
  simpa using h

/-- C4: `calculate_cost_savings` returns the pair of zero-floored
annual figures capacity × flexHours × (peakRate/100 − offpeakRate/100)
× (participation/100) × 365 at the low and high participation rates;
in particular zero capacity gives (0, 0) whatever the other inputs. -/
theorem C4_cost_savings (c f p o pl ph : ℚ) :
    calculate_cost_savings c f p o pl ph =
      (max 0 (c * f * (p / 100 - o / 100) * (pl / 100) * 365),
       max 0 (c * f * (p / 100 - o / 100) * (ph / 100) * 365)) ∧
    calculate_cost_savings 0 f p o pl ph = (0, 0) := by
  refine ⟨rfl, ?_⟩
  simp [calculate_cost_savings]

/-- C5: `calculate_incentives` returns (0, 0) on an empty program
selection regardless of the other arguments; otherwise it maps each
program to its static table rate (default 0.005 for unrecognized
names), takes the arithmetic mean (sum divided by count, not the sum)
of those rates, and returns the zero-floored capacity × avgRate ×
availabilityHours × participation/100 products at the low and high
settings. -/
theorem C5_incentive_revenue (c aL aH pL pH : ℚ) (progs : List String) :
    calculate_incentives c [] aL aH pL pH = (0, 0) ∧
    (progs ≠ [] →
      calculate_incentives c progs aL aH pL pH =
        (max 0 (c * ((progs.map fun s => (alookup service_rates s).getD (5 / 1000)).sum /
            (progs.length : ℚ)) * aL * (pL / 100)),
         max 0 (c * ((progs.map fun s => (alookup service_rates s).getD (5 / 1000)).sum /
            (progs.length : ℚ)) * aH * (pH / 100)))) := by
  refine ⟨rfl, ?_⟩
  intro h
  simp only [calculate_incentives, if_neg h, List.length_map]

/-- C5 witness: the single program "Dynamic Containment (DC)" at rate
0.020 returns the spec's example figures (12000, 64000). -/
theorem C5_incentive_revenue_witness :
    (["Dynamic Containment (DC)"] : List String) ≠ [] ∧
    calculate_incentives 1000 ["Dynamic Containment (DC)"] 2000 4000 30 80 =
      (12000, 64000) := by
  refine ⟨by decide, ?_⟩
  have h := (C5_incentive_revenue 1000 2000 4000 30 80
    ["Dynamic Containment (DC)"]).2 (by decide)
  rw [h]
  norm_num [alookup, service_rates]

/-- C6: `calculate_co2_savings` returns the single zero-floored value
capacity × flexHours × (peakFactor − offpeakFactor) ×
(participationAvg/100) × 365, and the result is never negative, even
when the off-peak emission factor exceeds the peak one. -/
theorem C6_co2_savings (c f pe oe pa : ℚ) :
    calculate_co2_savings c f pe oe pa =
      max 0 (c * f * (pe - oe) * (pa / 100) * 365) ∧
    0 ≤ calculate_co2_savings c f pe oe pa := by
  have h : calculate_co2_savings c f pe oe pa
      = max 0 (c * f * (pe - oe) * (pa / 100) * 365) := rfl
  exact ⟨h, by rw [h]; exact le_max_left 0 _⟩
